import Mathlib

/-!
# Hangman (`src/main.cpp`) — shallow embedding and verification

Modelling conventions:

* C++ `std::string` is modelled as `List Char`; the idiom
  `str.find(c) != string::npos` is membership `c ∈ l`, and `str += c`
  is `l ++ [c]`.
* C++ `int` fields are modelled as `Int`; the round counters, which the
  source only ever increments starting from 0, as `Nat`.
* The `double` rate fields are modelled as exact rationals `ℚ`
  (the source's arithmetic on them is a single division and product).
* Console output is dropped, except that the distinct message branches of
  `handleCharacterGuess` are reified as a `GuessResult` value, and the
  pieces of `displayGameState`'s output that the spec constrains are
  reified as pure projections (`displayedHint`, `revealedWord`).
* Stateful functions taking `GameState&` become functions returning the
  updated state; `rand()` becomes an explicit draw parameter; reading
  guesses from `cin` becomes an explicit script of `GuessAction`s.
-/

/-- `convertToUpper` (main.cpp:192-196): uppercase every character. -/
def convertToUpper (s : List Char) : List Char := s.map Char.toUpper

/-- `struct WordItem` (main.cpp:63-66): a word together with its hint. -/
structure WordItem where
  word : List Char
  hint : List Char
deriving Repr, DecidableEq

/-- `struct GameState` (main.cpp:73-86), with the source's member
initializers as default field values. -/
structure GameState where
  chosenWord : List Char := []
  guessedLetters : List Char := []
  chosenHint : List Char := []
  incorrectGuesses : Int := 0
  maxGuesses : Int
  wordGuessed : Bool := false
  wonRounds : Nat := 0
  lostRounds : Nat := 0
  totalRounds : Nat := 0
  winRate : ℚ := 0
  lossRate : ℚ := 0
deriving Repr, DecidableEq

/-- The `explicit GameState(int maxGuesses)` constructor (main.cpp:85). -/
def GameState.init (maxGuesses : Int) : GameState := { maxGuesses := maxGuesses }

/-- Round setup: a fresh `GameState(maxGuesses)` whose `chosenWord` and
`chosenHint` are assigned, as done at the start of each round in
`playSingleplayer` (main.cpp:559-564) and `playInteractiveMultiplayer`
(main.cpp:602-606); the target and hint are passed already prepared
(those two call sites pass them through `convertToUpper`). -/
def freshRound (target hint : List Char) (maxGuesses : Int) : GameState :=
  { chosenWord := target, chosenHint := hint, maxGuesses := maxGuesses }

/-- The spec's round outcome, as the source derives it: the game loops
while `incorrectGuesses < maxGuesses && !wordGuessed` (main.cpp:567,610),
and `endGameDisplay` (main.cpp:515-518) classifies `wordGuessed` as the
win and `incorrectGuesses >= maxGuesses` as the loss, in that order. -/
inductive Outcome
  | Unresolved
  | Won
  | Lost
deriving Repr, DecidableEq

/-- Outcome projection of a `GameState` (see `Outcome`). -/
def outcome (s : GameState) : Outcome :=
  if s.wordGuessed then .Won
  else if s.maxGuesses ≤ s.incorrectGuesses then .Lost
  else .Unresolved

/-- `wordGuess` (main.cpp:404-414): full-word guess.  On a match sets
`wordGuessed`; on a mismatch sets `incorrectGuesses` to `maxGuesses`
("Set incorrect guesses to max to end the game."). -/
def wordGuess (s : GameState) (fullGuess : List Char) : Bool × GameState :=
  if fullGuess = s.chosenWord then
    (true, { s with wordGuessed := true })
  else
    (false, { s with incorrectGuesses := s.maxGuesses })

/-- `checkWordGuessed` (main.cpp:465-473): true (setting `wordGuessed`)
iff every letter of `chosenWord` occurs in `guessedLetters`. -/
def checkWordGuessed (s : GameState) : Bool × GameState :=
  if ∀ c ∈ s.chosenWord, c ∈ s.guessedLetters then
    (true, { s with wordGuessed := true })
  else
    (false, s)

/-- The three message branches of `handleCharacterGuess`
(main.cpp:425, 430, 434): "already guessed ... No penalty",
"is incorrect!", "is correct!". -/
inductive GuessResult
  | AlreadyGuessed
  | Correct
  | Incorrect
deriving Repr, DecidableEq

/-- `handleCharacterGuess` (main.cpp:423-437).  Returns the message
branch taken, the C++ `bool` return value, and the updated state. -/
def handleCharacterGuess (s : GameState) (guess : Char) : GuessResult × Bool × GameState :=
  if guess ∈ s.guessedLetters then
    (.AlreadyGuessed, false, s)
  else
    let s1 := { s with guessedLetters := s.guessedLetters ++ [guess] }
    if guess ∉ s1.chosenWord then
      (.Incorrect, false, { s1 with incorrectGuesses := s1.incorrectGuesses + 1 })
    else
      let r := checkWordGuessed s1
      (.Correct, r.1, r.2)

/-- A validated guess action as consumed by `processPlayerGuess`
(main.cpp:445-457): either a single letter, or the `'1'` sentinel
followed by a raw line that is uppercased and passed to `wordGuess`. -/
inductive GuessAction
  | letter (c : Char)
  | word (raw : List Char)
deriving Repr, DecidableEq

/-- `processPlayerGuess` (main.cpp:445-457), with the already-validated
input reified as a `GuessAction`. -/
def processPlayerGuess (s : GameState) (a : GuessAction) : Bool × GameState :=
  match a with
  | .letter c => ((handleCharacterGuess s c).2.1, (handleCharacterGuess s c).2.2)
  | .word raw => wordGuess s (convertToUpper raw)

/-- Iterated letter guessing: apply `handleCharacterGuess` for each
letter of a list in order, threading the state. -/
def applyLetters : GameState → List Char → GameState
  | s, [] => s
  | s, c :: rest => applyLetters (handleCharacterGuess s c).2.2 rest

/-- The hint as printed by `displayGameState` (main.cpp:389):
`state.incorrectGuesses == 0 ? "" : state.chosenHint`. -/
def displayedHint (s : GameState) : List Char :=
  if s.incorrectGuesses = 0 then [] else s.chosenHint

/-- The revealed-word view printed by `displayGameState`
(main.cpp:391-393): each letter of `chosenWord` is shown if it occurs in
`guessedLetters`, else replaced by `'_'`. -/
def revealedWord (s : GameState) : List Char :=
  s.chosenWord.map (fun letter => if letter ∈ s.guessedLetters then letter else '_')

/-- `gameStats` (main.cpp:340-346): refresh `totalRounds` (only when a
round has been recorded) and recompute the two rates. -/
def gameStats (s : GameState) : GameState :=
  let s1 :=
    if 0 < s.wonRounds ∨ 0 < s.lostRounds then
      { s with totalRounds := s.wonRounds + s.lostRounds }
    else s
  { s1 with
    winRate := if s1.totalRounds = 0 then 0
               else (s1.wonRounds : ℚ) / (s1.totalRounds : ℚ) * 100,
    lossRate := if s1.totalRounds = 0 then 0
                else (s1.lostRounds : ℚ) / (s1.totalRounds : ℚ) * 100 }

/-- `endGameDisplay` (main.cpp:514-532): record the round's outcome in
the counters, then recompute `totalRounds` and the two rates. -/
def endGameDisplay (s : GameState) : GameState :=
  let s1 :=
    if s.wordGuessed then { s with wonRounds := s.wonRounds + 1 }
    else if s.maxGuesses ≤ s.incorrectGuesses then { s with lostRounds := s.lostRounds + 1 }
    else s
  let total := s1.wonRounds + s1.lostRounds
  { s1 with
    totalRounds := total,
    winRate := if 0 < total then (s1.wonRounds : ℚ) / (total : ℚ) * 100 else 0,
    lossRate := if 0 < total then (s1.lostRounds : ℚ) / (total : ℚ) * 100 else 0 }

/-- One line of `readIntoWordItem` (main.cpp:284-291): split at the first
comma into word and hint; a line without a comma yields nothing. -/
def parseLine (line : List Char) : Option WordItem :=
  if ',' ∈ line then
    some { word := line.takeWhile (fun c => c ≠ ','),
           hint := (line.dropWhile (fun c => c ≠ ',')).tail }
  else
    none

/-- `readIntoWordItem` (main.cpp:277-293) on an already-read list of
lines: keep the parse of every line that contains a comma.  Note that
no case normalization is performed on load. -/
def readIntoWordItem (lines : List (List Char)) : List WordItem :=
  lines.filterMap parseLine

/-- `multiplayerSetup` (main.cpp:665-671): both players get the word and
hint of the same randomly drawn entry, copied verbatim (no
`convertToUpper` here, unlike the single-player and interactive round
setups).  The `rand()` draw is reified as the parameter `r`. -/
def multiplayerSetup (state1 state2 : GameState) (wordList : List WordItem) (r : Nat) :
    GameState × GameState :=
  let wordIndex := r % wordList.length
  let item := wordList.getD wordIndex { word := [], hint := [] }
  ({ state1 with chosenWord := item.word, chosenHint := item.hint },
   { state2 with chosenWord := item.word, chosenHint := item.hint })

/-- `struct PlayerState` (main.cpp:93-100). -/
structure PlayerState where
  state : GameState
  playerName : String
  totalWins : Nat := 0
  totalLosses : Nat := 0
deriving Repr, DecidableEq

/-- `multiplayerEndGameDisplay` (main.cpp:630-644): bump the winner's or
loser's tally (the loss branch tests `incorrectGuesses == maxGuesses`). -/
def multiplayerEndGameDisplay (p : PlayerState) : PlayerState :=
  if p.state.wordGuessed then
    { p with totalWins := p.totalWins + 1 }
  else if p.state.incorrectGuesses = p.state.maxGuesses then
    { p with totalLosses := p.totalLosses + 1 }
  else
    p

/-- The result of one player's slot in the `for` loop of
`playMultiplayer` (main.cpp:693-707): the updated player, the rest of
that player's scripted input, and whether this turn hit the
`wordGuessed` branch that sets `gameActive = false` and `break`s. -/
structure TurnResult where
  player : PlayerState
  script : List GuessAction
  wonNow : Bool
deriving Repr, DecidableEq

/-- One player's slot in the turn loop of `playMultiplayer`
(main.cpp:693-707).  A player whose state is already terminal is
skipped.  An empty script means the program would block on input; the
model returns the state unchanged in that case. -/
def playerTurn (p : PlayerState) (script : List GuessAction) : TurnResult :=
  if ¬p.state.wordGuessed ∧ p.state.incorrectGuesses < p.state.maxGuesses then
    match script with
    | [] => { player := p, script := [], wonNow := false }
    | a :: rest =>
      let s1 := (processPlayerGuess p.state a).2
      let p1 : PlayerState := { p with state := s1 }
      if s1.wordGuessed then
        { player := multiplayerEndGameDisplay p1, script := rest, wonNow := true }
      else if p1.state.maxGuesses ≤ s1.incorrectGuesses then
        { player := multiplayerEndGameDisplay p1, script := rest, wonNow := false }
      else
        { player := p1, script := rest, wonNow := false }
  else
    { player := p, script := script, wonNow := false }

/-- The state of the `playMultiplayer` game loop (main.cpp:690-712):
both players, their remaining scripted inputs, and `gameActive`. -/
structure MPState where
  player1 : PlayerState
  script1 : List GuessAction
  player2 : PlayerState
  script2 : List GuessAction
  gameActive : Bool
deriving Repr, DecidableEq

/-- One pass of the `for (auto& currentPlayer : {&player1, &player2})`
loop of `playMultiplayer` (main.cpp:693-711), including the `break` on a
win and the trailing
`gameActive = gameActive && (player1 alive || player2 alive)` update. -/
def runCycle (st : MPState) : MPState :=
  let r1 := playerTurn st.player1 st.script1
  if r1.wonNow then
    { player1 := r1.player, script1 := r1.script,
      player2 := st.player2, script2 := st.script2, gameActive := false }
  else
    let r2 := playerTurn st.player2 st.script2
    if r2.wonNow then
      { player1 := r1.player, script1 := r1.script,
        player2 := r2.player, script2 := r2.script, gameActive := false }
    else
      { player1 := r1.player, script1 := r1.script,
        player2 := r2.player, script2 := r2.script,
        gameActive := decide
          ((r1.player.state.incorrectGuesses < r1.player.state.maxGuesses ∧
              ¬r1.player.state.wordGuessed) ∨
           (r2.player.state.incorrectGuesses < r2.player.state.maxGuesses ∧
              ¬r2.player.state.wordGuessed)) }

/-- The `while (gameActive)` loop of `playMultiplayer` (main.cpp:692-712),
with explicit fuel bounding the number of cycles. -/
def runGame : Nat → MPState → MPState
  | 0, st => st
  | fuel + 1, st => if st.gameActive then runGame fuel (runCycle st) else st

/-- Coverage of the target by the guessed letters: the condition tested
by `checkWordGuessed`. -/
def covered (s : GameState) : Prop :=
  ∀ c ∈ s.chosenWord, c ∈ s.guessedLetters

instance (s : GameState) : Decidable (covered s) := by
  unfold covered; infer_instance

-- ===================== helper lemmas =====================

lemma outcome_won_iff (s : GameState) : outcome s = .Won ↔ s.wordGuessed = true := by
  unfold outcome
  by_cases h : s.wordGuessed <;> simp [h]
  split <;> simp

lemma runGame_inactive (fuel : Nat) (st : MPState) (h : st.gameActive = false) :
    runGame fuel st = st := by
  cases fuel with
  | zero => rfl
  | succ n => simp [runGame, h]

lemma hcg_already (s : GameState) (c : Char) (h : c ∈ s.guessedLetters) :
    handleCharacterGuess s c = (.AlreadyGuessed, false, s) := by
  simp [handleCharacterGuess, h]

lemma hcg_wrong (s : GameState) (c : Char) (h1 : c ∉ s.guessedLetters)
    (h2 : c ∉ s.chosenWord) :
    handleCharacterGuess s c =
      (.Incorrect, false,
        { s with guessedLetters := s.guessedLetters ++ [c],
                 incorrectGuesses := s.incorrectGuesses + 1 }) := by
  simp [handleCharacterGuess, h1, h2]

lemma hcg_correct (s : GameState) (c : Char) (h1 : c ∉ s.guessedLetters)
    (h2 : c ∈ s.chosenWord) :
    handleCharacterGuess s c =
      (.Correct,
        (checkWordGuessed { s with guessedLetters := s.guessedLetters ++ [c] }).1,
        (checkWordGuessed { s with guessedLetters := s.guessedLetters ++ [c] }).2) := by
  simp [handleCharacterGuess, h1, h2]

lemma checkWordGuessed_state (s : GameState) :
    (checkWordGuessed s).2 = s ∨
    (checkWordGuessed s).2 = { s with wordGuessed := true } := by
  unfold checkWordGuessed
  split
  · right; rfl
  · left; rfl

-- ===================== C1 =====================

/-- C1: from any `Unresolved` state, a full-word guess whose
case-normalized form differs from the target returns `false`, sets
`incorrectGuesses` to `maxGuesses`, and leaves the round `Lost`,
irrespective of the prior incorrect count. -/
theorem wordGuess_wrong_forces_loss (s : GameState) (cand : List Char)
    (hU : outcome s = .Unresolved) (hne : convertToUpper cand ≠ s.chosenWord) :
    (processPlayerGuess s (.word cand)).1 = false ∧
    (processPlayerGuess s (.word cand)).2.incorrectGuesses = s.maxGuesses ∧
    outcome (processPlayerGuess s (.word cand)).2 = .Lost := by
  have hw : s.wordGuessed = false := by
    by_cases h : s.wordGuessed
    · simp [outcome, h] at hU
    · simpa using h
  refine ⟨?_, ?_, ?_⟩ <;>
    simp [processPlayerGuess, wordGuess, hne, outcome, hw]

/-- Witness for C1: one wrong full-word guess from a fresh state with
`maxIncorrect = 8` yields `Lost`, not merely one incorrect guess. -/
theorem wordGuess_wrong_forces_loss_witness :
    (processPlayerGuess (freshRound ['C','A','T'] [] 8) (.word ['d','o','g'])).1 = false ∧
    (processPlayerGuess (freshRound ['C','A','T'] [] 8) (.word ['d','o','g'])).2.incorrectGuesses = 8 ∧
    outcome (processPlayerGuess (freshRound ['C','A','T'] [] 8) (.word ['d','o','g'])).2 = .Lost :=
  wordGuess_wrong_forces_loss (freshRound ['C','A','T'] [] 8) ['d','o','g']
    (by decide) (by decide)

-- ===================== C5 =====================

/-- C5: guessing a letter already in `guessedLetters` reports the
already-guessed branch, returns `false`, and leaves the entire state
unchanged. -/
theorem already_guessed_idempotent (s : GameState) (c : Char)
    (h : c ∈ s.guessedLetters) :
    handleCharacterGuess s c = (.AlreadyGuessed, false, s) := by
  simp [handleCharacterGuess, h]

/-- Witness for C5: re-guessing `'A'` after a correct `'A'` (and after an
incorrect `'X'`) changes nothing. -/
theorem already_guessed_idempotent_witness :
    handleCharacterGuess
        { chosenWord := ['C','A','T'], guessedLetters := ['A','X'],
          incorrectGuesses := 1, maxGuesses := 8 } 'A' =
      (.AlreadyGuessed, false,
        { chosenWord := ['C','A','T'], guessedLetters := ['A','X'],
          incorrectGuesses := 1, maxGuesses := 8 }) :=
  already_guessed_idempotent
    { chosenWord := ['C','A','T'], guessedLetters := ['A','X'],
      incorrectGuesses := 1, maxGuesses := 8 } 'A' (by decide)

-- ===================== C7 =====================

/-- C7: for a non-empty catalog and any draw, `multiplayerSetup` seeds
the two players with the identical target and the identical hint. -/
theorem multiplayer_setup_fair (s1 s2 : GameState) (wordList : List WordItem)
    (r : Nat) (_hw : wordList ≠ []) :
    (multiplayerSetup s1 s2 wordList r).1.chosenWord =
      (multiplayerSetup s1 s2 wordList r).2.chosenWord ∧
    (multiplayerSetup s1 s2 wordList r).1.chosenHint =
      (multiplayerSetup s1 s2 wordList r).2.chosenHint :=
  ⟨rfl, rfl⟩

/-- Witness for C7 on a concrete one-entry catalog. -/
theorem multiplayer_setup_fair_witness :
    (multiplayerSetup (GameState.init 8) (GameState.init 8)
        [{ word := ['D','O','G'], hint := ['P','E','T'] }] 5).1.chosenWord =
      (multiplayerSetup (GameState.init 8) (GameState.init 8)
        [{ word := ['D','O','G'], hint := ['P','E','T'] }] 5).2.chosenWord ∧
    (multiplayerSetup (GameState.init 8) (GameState.init 8)
        [{ word := ['D','O','G'], hint := ['P','E','T'] }] 5).1.chosenHint =
      (multiplayerSetup (GameState.init 8) (GameState.init 8)
        [{ word := ['D','O','G'], hint := ['P','E','T'] }] 5).2.chosenHint :=
  multiplayer_setup_fair (GameState.init 8) (GameState.init 8)
    [{ word := ['D','O','G'], hint := ['P','E','T'] }] 5 (by decide)

-- ===================== C6 =====================

/-- C6 (code bug evidence): the catalog loader keeps a lowercase entry
verbatim, and `multiplayerSetup` copies it into both players' round
states with no uppercase normalization, so a two-player round can start
with a target containing a lowercase alphabetic character — contrary to
the round-start normalization performed by the single-player and
interactive setups. -/
theorem multiplayer_setup_skips_uppercase :
    readIntoWordItem [['c','a','t',',','p','e','t']] =
      [{ word := ['c','a','t'], hint := ['p','e','t'] }] ∧
    (multiplayerSetup (GameState.init 8) (GameState.init 8)
        [{ word := ['c','a','t'], hint := ['p','e','t'] }] 0).1.chosenWord = ['c','a','t'] ∧
    (multiplayerSetup (GameState.init 8) (GameState.init 8)
        [{ word := ['c','a','t'], hint := ['p','e','t'] }] 0).2.chosenWord = ['c','a','t'] ∧
    'c' ∈ (multiplayerSetup (GameState.init 8) (GameState.init 8)
        [{ word := ['c','a','t'], hint := ['p','e','t'] }] 0).1.chosenWord ∧
    'c'.isAlpha = true ∧ 'c'.isUpper = false := by
  refine ⟨?_, rfl, rfl, by decide, by decide, by decide⟩
  rfl

-- ===================== C9 =====================

/-- C9: the display projection withholds the hint exactly while no
incorrect guess has occurred, and the revealed-word view shows each
target character iff it is among the guessed letters, a placeholder
`'_'` otherwise. -/
theorem display_projection (s : GameState) :
    (s.incorrectGuesses = 0 → displayedHint s = []) ∧
    (0 < s.incorrectGuesses → displayedHint s = s.chosenHint) ∧
    (revealedWord s).length = s.chosenWord.length ∧
    (∀ (i : Nat) (c : Char), s.chosenWord[i]? = some c →
      (revealedWord s)[i]? = some (if c ∈ s.guessedLetters then c else '_')) := by
  refine ⟨fun h => by simp [displayedHint, h], fun h => ?_, by simp [revealedWord], ?_⟩
  · have : s.incorrectGuesses ≠ 0 := by omega
    simp [displayedHint, this]
  · intro i c hc
    simp [revealedWord, List.getElem?_map, hc]

/-- Witness for C9: target `CAT` with `A` guessed and one incorrect
guess shows the hint and reveals only the `A`. -/
theorem display_projection_witness :
    displayedHint { chosenWord := ['C','A','T'], guessedLetters := ['A','X'],
                    chosenHint := ['P','E','T'], incorrectGuesses := 1,
                    maxGuesses := 8 } =
      ['P','E','T'] ∧
    (revealedWord { chosenWord := ['C','A','T'], guessedLetters := ['A','X'],
                    chosenHint := ['P','E','T'], incorrectGuesses := 1,
                    maxGuesses := 8 })[1]? =
      some 'A' ∧
    (revealedWord { chosenWord := ['C','A','T'], guessedLetters := ['A','X'],
                    chosenHint := ['P','E','T'], incorrectGuesses := 1,
                    maxGuesses := 8 })[0]? =
      some '_' := by
  have h := display_projection
    { chosenWord := ['C','A','T'], guessedLetters := ['A','X'],
      chosenHint := ['P','E','T'], incorrectGuesses := 1, maxGuesses := 8 }
  refine ⟨h.2.1 (by decide), ?_, ?_⟩
  · have := h.2.2.2 1 'A' (by decide)
    simpa using this
  · have := h.2.2.2 0 'C' (by decide)
    simpa using this

-- ===================== C3 =====================

lemma applyLetters_wrong (l : List Char) :
    ∀ s : GameState, l.Nodup → (∀ c ∈ l, c ∉ s.chosenWord) →
    (∀ c ∈ l, c ∉ s.guessedLetters) →
    applyLetters s l =
      { s with guessedLetters := s.guessedLetters ++ l,
               incorrectGuesses := s.incorrectGuesses + l.length } := by
  induction l with
  | nil =>
    intro s _ _ _
    simp [applyLetters]
  | cons c rest ih =>
    intro s hnd hword hguess
    have hcw : c ∉ s.chosenWord := hword c (by simp)
    have hcg : c ∉ s.guessedLetters := hguess c (by simp)
    have hstep := hcg_wrong s c hcg hcw
    have hrest :=
      ih { s with guessedLetters := s.guessedLetters ++ [c],
                  incorrectGuesses := s.incorrectGuesses + 1 }
        hnd.of_cons
        (fun x hx => hword x (by simp [hx]))
        (fun x hx => by
          have hxg : x ∉ s.guessedLetters := hguess x (by simp [hx])
          have hxc : x ≠ c := by
            rintro rfl
            exact (List.nodup_cons.mp hnd).1 hx
          simp [hxg, hxc])
    show applyLetters (handleCharacterGuess s c).2.2 rest = _
    rw [hstep]
    simp only [hrest]
    simp [GameState.mk.injEq, List.append_assoc]
    ring

/-- C3: starting a fresh round with `maxIncorrect = m > 0`, a sequence of
distinct letters absent from the target drives `incorrectGuesses` up by
exactly one per letter, leaves the round `Unresolved` strictly below `m`
wrong letters, and reaches `Lost` exactly at the `m`-th wrong letter. -/
theorem loss_threshold (t h : List Char) (m : Nat) (l : List Char)
    (_hm : 0 < m) (hnd : l.Nodup) (hwrong : ∀ c ∈ l, c ∉ t) :
    (∀ k, k ≤ l.length →
      (applyLetters (freshRound t h (m : Int)) (l.take k)).incorrectGuesses = (k : Int)) ∧
    (∀ k, k ≤ l.length → k < m →
      outcome (applyLetters (freshRound t h (m : Int)) (l.take k)) = .Unresolved) ∧
    (m ≤ l.length →
      outcome (applyLetters (freshRound t h (m : Int)) (l.take m)) = .Lost) := by
  have key : ∀ k, k ≤ l.length →
      applyLetters (freshRound t h (m : Int)) (l.take k) =
        { freshRound t h (m : Int) with
            guessedLetters := [] ++ l.take k,
            incorrectGuesses := 0 + ((l.take k).length : Int) } := by
    intro k hk
    exact applyLetters_wrong (l.take k) (freshRound t h (m : Int))
      (hnd.sublist (List.take_sublist k l))
      (fun c hc => hwrong c (List.take_subset k l hc))
      (fun c _ => by simp [freshRound])
  have hlen : ∀ k, k ≤ l.length → (l.take k).length = k := by
    intro k hk
    simp [List.length_take, Nat.min_eq_left hk]
  refine ⟨?_, ?_, ?_⟩
  · intro k hk
    rw [key k hk]
    simp [hlen k hk]
  · intro k hk hkm
    rw [key k hk, hlen k hk]
    simp only [outcome, freshRound]
    have hnle : ¬ ((m : Int) ≤ 0 + (k : Int)) := by omega
    simp [hnle]
    omega
  · intro hml
    rw [key m hml, hlen m hml]
    simp only [outcome, freshRound]
    have hle : (m : Int) ≤ 0 + (m : Int) := by omega
    simp [hle]

/-- Witness for C3 at `maxIncorrect = 2` with wrong letters `X, Y`
against target `CAT`: one wrong letter leaves the round `Unresolved`
with count 1; the second reaches `Lost`. -/
theorem loss_threshold_witness :
    (applyLetters (freshRound ['C','A','T'] [] (2 : Int)) (['X','Y'].take 1)).incorrectGuesses = 1 ∧
    outcome (applyLetters (freshRound ['C','A','T'] [] (2 : Int)) (['X','Y'].take 1)) = .Unresolved ∧
    outcome (applyLetters (freshRound ['C','A','T'] [] (2 : Int)) (['X','Y'].take 2)) = .Lost := by
  have h := loss_threshold ['C','A','T'] [] 2 ['X','Y'] (by decide) (by decide) (by decide)
  exact ⟨h.1 1 (by decide), h.2.1 1 (by decide) (by decide), h.2.2 (by decide)⟩

-- ===================== C10 =====================

lemma hcg_guessedLetters (s : GameState) (c : Char) :
    ((handleCharacterGuess s c).2.2.guessedLetters = s.guessedLetters ∧
      c ∈ s.guessedLetters) ∨
    ((handleCharacterGuess s c).2.2.guessedLetters = s.guessedLetters ++ [c] ∧
      c ∉ s.guessedLetters) := by
  by_cases h : c ∈ s.guessedLetters
  · left
    exact ⟨by rw [hcg_already s c h], h⟩
  · right
    refine ⟨?_, h⟩
    by_cases hw : c ∈ s.chosenWord
    · rw [hcg_correct s c h hw]
      rcases checkWordGuessed_state
          { s with guessedLetters := s.guessedLetters ++ [c] } with h2 | h2 <;>
        simp [h2]
    · rw [hcg_wrong s c h hw]

lemma applyLetters_nodup (l : List Char) :
    ∀ s : GameState, s.guessedLetters.Nodup → (applyLetters s l).guessedLetters.Nodup := by
  induction l with
  | nil => intro s hs; exact hs
  | cons c rest ih =>
    intro s hs
    show ((applyLetters (handleCharacterGuess s c).2.2 rest).guessedLetters).Nodup
    apply ih
    rcases hcg_guessedLetters s c with ⟨heq, _⟩ | ⟨heq, hnot⟩
    · rw [heq]; exact hs
    · rw [heq]
      simp [List.nodup_append, hs, hnot]

/-- C10: `guessedLetters` is duplicate-free and grows monotonically: a
single `handleCharacterGuess` either leaves it unchanged (letter already
present) or appends exactly the guessed letter (letter absent);
`wordGuess` never touches it; and any fresh round driven by letter
guesses keeps it duplicate-free. -/
theorem guessed_letters_nodup_monotone :
    (∀ (s : GameState) (c : Char),
      ((handleCharacterGuess s c).2.2.guessedLetters = s.guessedLetters ∧
        c ∈ s.guessedLetters) ∨
      ((handleCharacterGuess s c).2.2.guessedLetters = s.guessedLetters ++ [c] ∧
        c ∉ s.guessedLetters)) ∧
    (∀ (s : GameState) (g : List Char), (wordGuess s g).2.guessedLetters = s.guessedLetters) ∧
    (∀ (t h : List Char) (m : Int) (l : List Char),
      ((applyLetters (freshRound t h m) l).guessedLetters).Nodup) := by
  refine ⟨hcg_guessedLetters, ?_, ?_⟩
  · intro s g
    unfold wordGuess
    split <;> rfl
  · intro t h m l
    exact applyLetters_nodup l (freshRound t h m) (by simp [freshRound])

-- ===================== C4 =====================

lemma applyLetters_correct_master (l : List Char) :
    ∀ s : GameState, (∀ c ∈ l, c ∈ s.chosenWord) →
    ((applyLetters s l).chosenWord = s.chosenWord) ∧
    (∀ x, x ∈ (applyLetters s l).guessedLetters ↔ x ∈ s.guessedLetters ∨ x ∈ l) ∧
    ((s.wordGuessed = true → covered s) →
      (applyLetters s l).wordGuessed = true → covered (applyLetters s l)) ∧
    ((covered s → s.wordGuessed = true) →
      covered (applyLetters s l) → (applyLetters s l).wordGuessed = true) := by
  induction l with
  | nil =>
    intro s _
    exact ⟨rfl, fun x => by simp [applyLetters], fun h => h, fun h => h⟩
  | cons c rest ih =>
    intro s hall
    have hc : c ∈ s.chosenWord := hall c (by simp)
    have hrest : ∀ x ∈ rest, x ∈ s.chosenWord := fun x hx => hall x (by simp [hx])
    simp only [applyLetters]
    by_cases hg : c ∈ s.guessedLetters
    · rw [hcg_already s c hg]
      have hih := ih s hrest
      refine ⟨hih.1, ?_, hih.2.2.1, hih.2.2.2⟩
      intro x
      rw [hih.2.1 x]
      constructor
      · rintro (hx | hx)
        · exact Or.inl hx
        · exact Or.inr (by simp [hx])
      · rintro (hx | hx)
        · exact Or.inl hx
        · rcases List.mem_cons.mp hx with rfl | hx
          · exact Or.inl hg
          · exact Or.inr hx
    · rw [hcg_correct s c hg hc]
      by_cases hcov : ∀ x ∈ s.chosenWord, x ∈ s.guessedLetters ++ [c]
      · have hck : (checkWordGuessed { s with guessedLetters := s.guessedLetters ++ [c] }).2 =
            { s with guessedLetters := s.guessedLetters ++ [c], wordGuessed := true } := by
          simp only [checkWordGuessed]
          rw [if_pos hcov]
        rw [hck]
        have hih := ih { s with guessedLetters := s.guessedLetters ++ [c], wordGuessed := true }
          hrest
        refine ⟨hih.1, ?_, ?_, ?_⟩
        · intro x
          rw [hih.2.1 x]
          simp [or_assoc]
        · intro _
          exact hih.2.2.1 (fun _ => hcov)
        · intro _
          exact hih.2.2.2 (fun _ => rfl)
      · have hck : (checkWordGuessed { s with guessedLetters := s.guessedLetters ++ [c] }).2 =
            { s with guessedLetters := s.guessedLetters ++ [c] } := by
          simp only [checkWordGuessed]
          rw [if_neg hcov]
        rw [hck]
        have hih := ih { s with guessedLetters := s.guessedLetters ++ [c] } hrest
        refine ⟨hih.1, ?_, ?_, ?_⟩
        · intro x
          rw [hih.2.1 x]
          simp [or_assoc]
        · intro hI2
          exact hih.2.2.1 (fun hw => fun x hx => List.mem_append_left [c] (hI2 hw x hx))
        · intro _
          exact hih.2.2.2 (fun hcv => absurd hcv hcov)

/-- C4 counterexample: for a round whose target is the empty string
(reachable from a catalog line starting with a comma, or an empty
interactive input), every character of the target is vacuously contained
in `guessedLetters` after the empty sequence of correct guesses, yet the
round is not `Won` — so the biconditional of the claim fails without a
nonempty-target assumption. -/
theorem win_completeness_cex :
    (∀ c ∈ (applyLetters (freshRound [] [] 8) []).chosenWord,
        c ∈ (applyLetters (freshRound [] [] 8) []).guessedLetters) ∧
    outcome (applyLetters (freshRound [] [] 8) []) ≠ .Won := by
  constructor
  · intro c hc
    simp [applyLetters, freshRound] at hc
  · decide

/-- C4 (amended: nonempty target): for a fresh round on a nonempty
target, after any sequence of correct letter guesses the round is `Won`
exactly when every character of the target has been guessed — an
order-independent condition — and it is not `Won` after any partial
sequence missing some target character. -/
theorem win_completeness (t h : List Char) (m : Int) (l : List Char)
    (ht : t ≠ []) (hl : ∀ c ∈ l, c ∈ t) :
    (outcome (applyLetters (freshRound t h m) l) = .Won ↔ ∀ c ∈ t, c ∈ l) ∧
    (∀ k, ¬ (∀ c ∈ t, c ∈ l.take k) →
      outcome (applyLetters (freshRound t h m) (l.take k)) ≠ .Won) := by
  have main : ∀ l' : List Char, (∀ c ∈ l', c ∈ t) →
      (outcome (applyLetters (freshRound t h m) l') = .Won ↔ ∀ c ∈ t, c ∈ l') := by
    intro l' hl'
    have hmaster := applyLetters_correct_master l' (freshRound t h m)
      (by simpa [freshRound] using hl')
    rw [outcome_won_iff]
    constructor
    · intro hw c hct
      have hcovd := hmaster.2.2.1 (by simp [freshRound]) hw
      have hcw : c ∈ (applyLetters (freshRound t h m) l').chosenWord := by
        rw [hmaster.1]
        simpa [freshRound] using hct
      rcases (hmaster.2.1 c).mp (hcovd c hcw) with h0 | h1
      · simp [freshRound] at h0
      · exact h1
    · intro hcov
      apply hmaster.2.2.2
      · intro hcv
        exfalso
        obtain ⟨c0, hc0⟩ := List.exists_mem_of_ne_nil t ht
        have := hcv c0 (by simpa [freshRound] using hc0)
        simp [freshRound] at this
      · intro c hcw
        have hct : c ∈ t := by
          rw [hmaster.1] at hcw
          simpa [freshRound] using hcw
        exact (hmaster.2.1 c).mpr (Or.inr (hcov c hct))
  refine ⟨main l hl, ?_⟩
  intro k hnk hwon
  exact hnk ((main (l.take k) (fun c hc => hl c (List.take_subset k l hc))).mp hwon)

/-- Witness for C4: target `CAT` is `Won` after guessing `T, A, C` (an
order other than the spelling) and is not `Won` after only `T, A`. -/
theorem win_completeness_witness :
    outcome (applyLetters (freshRound ['C','A','T'] [] 8) ['T','A','C']) = .Won ∧
    outcome (applyLetters (freshRound ['C','A','T'] [] 8) (['T','A','C'].take 2)) ≠ .Won := by
  have h := win_completeness ['C','A','T'] [] 8 ['T','A','C'] (by decide) (by decide)
  exact ⟨h.1.mpr (by decide), h.2 2 (by decide)⟩

-- ===================== C8 =====================

lemma rate_sum (w l : Nat) (h : 0 < w + l) :
    (w : ℚ) / ((w : ℚ) + (l : ℚ)) * 100 + (l : ℚ) / ((w : ℚ) + (l : ℚ)) * 100 = 100 := by
  have hpos : (0 : ℚ) < (w : ℚ) + (l : ℚ) := by
    have : (0 : ℚ) < ((w + l : Nat) : ℚ) := by exact_mod_cast h
    push_cast at this
    linarith
  have hne : ((w : ℚ) + (l : ℚ)) ≠ 0 := ne_of_gt hpos
  field_simp
  ring

lemma rate_core (w l : Nat) :
    (w + l = 0 →
      (if 0 < w + l then (w : ℚ) / ((w + l : Nat) : ℚ) * 100 else 0) = 0 ∧
      (if 0 < w + l then (l : ℚ) / ((w + l : Nat) : ℚ) * 100 else 0) = 0) ∧
    (0 < w + l →
      (if 0 < w + l then (w : ℚ) / ((w + l : Nat) : ℚ) * 100 else 0) =
        (w : ℚ) / ((w : ℚ) + (l : ℚ)) * 100 ∧
      (if 0 < w + l then (l : ℚ) / ((w + l : Nat) : ℚ) * 100 else 0) =
        (l : ℚ) / ((w : ℚ) + (l : ℚ)) * 100 ∧
      (if 0 < w + l then (w : ℚ) / ((w + l : Nat) : ℚ) * 100 else 0) +
        (if 0 < w + l then (l : ℚ) / ((w + l : Nat) : ℚ) * 100 else 0) = 100) := by
  have hc : ((w + l : Nat) : ℚ) = (w : ℚ) + (l : ℚ) := by push_cast; ring
  constructor
  · intro h0
    simp [h0]
  · intro hpos
    refine ⟨by rw [if_pos hpos, hc], by rw [if_pos hpos, hc], ?_⟩
    rw [if_pos hpos, if_pos hpos, hc]
    exact rate_sum w l hpos

lemma endGameDisplay_rates (s : GameState) :
    (endGameDisplay s).winRate =
      (if 0 < (endGameDisplay s).wonRounds + (endGameDisplay s).lostRounds
       then ((endGameDisplay s).wonRounds : ℚ) /
         (((endGameDisplay s).wonRounds + (endGameDisplay s).lostRounds : Nat) : ℚ) * 100
       else 0) ∧
    (endGameDisplay s).lossRate =
      (if 0 < (endGameDisplay s).wonRounds + (endGameDisplay s).lostRounds
       then ((endGameDisplay s).lostRounds : ℚ) /
         (((endGameDisplay s).wonRounds + (endGameDisplay s).lostRounds : Nat) : ℚ) * 100
       else 0) := by
  by_cases h1 : s.wordGuessed
  · simp [endGameDisplay, h1]
  · by_cases h2 : s.maxGuesses ≤ s.incorrectGuesses
    · simp [endGameDisplay, h1, h2]
    · simp [endGameDisplay, h1, h2]

/-- C8: rates derived from the recorded rounds.  For `endGameDisplay`
(whose output counters are the recorded state): both rates `0` when no
round is recorded; otherwise `won/(won+lost)*100` and
`lost/(won+lost)*100`, summing to `100`.  `gameStats` satisfies the same
contract over its input counters.  (`double` arithmetic is modelled as
exact rationals.) -/
theorem stats_rates (s : GameState) :
    ((endGameDisplay s).wonRounds + (endGameDisplay s).lostRounds = 0 →
      (endGameDisplay s).winRate = 0 ∧ (endGameDisplay s).lossRate = 0) ∧
    (0 < (endGameDisplay s).wonRounds + (endGameDisplay s).lostRounds →
      (endGameDisplay s).winRate =
        ((endGameDisplay s).wonRounds : ℚ) /
          (((endGameDisplay s).wonRounds : ℚ) + ((endGameDisplay s).lostRounds : ℚ)) * 100 ∧
      (endGameDisplay s).lossRate =
        ((endGameDisplay s).lostRounds : ℚ) /
          (((endGameDisplay s).wonRounds : ℚ) + ((endGameDisplay s).lostRounds : ℚ)) * 100 ∧
      (endGameDisplay s).winRate + (endGameDisplay s).lossRate = 100) ∧
    (s.wonRounds + s.lostRounds = 0 →
      (gameStats s).winRate = 0 ∧ (gameStats s).lossRate = 0) ∧
    (0 < s.wonRounds + s.lostRounds →
      (gameStats s).winRate =
        (s.wonRounds : ℚ) / ((s.wonRounds : ℚ) + (s.lostRounds : ℚ)) * 100 ∧
      (gameStats s).lossRate =
        (s.lostRounds : ℚ) / ((s.wonRounds : ℚ) + (s.lostRounds : ℚ)) * 100 ∧
      (gameStats s).winRate + (gameStats s).lossRate = 100) := by
  obtain ⟨hwin, hloss⟩ := endGameDisplay_rates s
  refine ⟨?_, ?_, ?_, ?_⟩
  · intro h0
    rw [hwin, hloss]
    exact (rate_core _ _).1 h0
  · intro hpos
    rw [hwin, hloss]
    exact (rate_core _ _).2 hpos
  · intro h0
    have hw0 : s.wonRounds = 0 := by omega
    have hl0 : s.lostRounds = 0 := by omega
    constructor <;> simp [gameStats, hw0, hl0]
  · intro hpos
    have hcond : 0 < s.wonRounds ∨ 0 < s.lostRounds := by omega
    have hne : ¬ (s.wonRounds + s.lostRounds = 0) := by omega
    have hc : ((s.wonRounds + s.lostRounds : Nat) : ℚ) =
        (s.wonRounds : ℚ) + (s.lostRounds : ℚ) := by push_cast; ring
    refine ⟨?_, ?_, ?_⟩
    · simp only [gameStats, if_pos hcond]
      rw [if_neg hne, hc]
    · simp only [gameStats, if_pos hcond]
      rw [if_neg hne, hc]
    · simp only [gameStats, if_pos hcond]
      rw [if_neg hne, if_neg hne, hc]
      exact rate_sum s.wonRounds s.lostRounds hpos

/-- Witness for C8: after 3 won and 1 lost rounds the win rate is 75 and
the loss rate 25; with zero rounds both rates are 0. -/
theorem stats_rates_witness :
    (endGameDisplay { maxGuesses := 8, wonRounds := 3, lostRounds := 1 }).winRate = 75 ∧
    (endGameDisplay { maxGuesses := 8, wonRounds := 3, lostRounds := 1 }).lossRate = 25 ∧
    (endGameDisplay { maxGuesses := 8, wonRounds := 3, lostRounds := 1 }).winRate +
      (endGameDisplay { maxGuesses := 8, wonRounds := 3, lostRounds := 1 }).lossRate = 100 ∧
    (gameStats { maxGuesses := 8 }).winRate = 0 ∧
    (gameStats { maxGuesses := 8 }).lossRate = 0 := by
  have h1 := (stats_rates { maxGuesses := 8, wonRounds := 3, lostRounds := 1 }).2.1 (by decide)
  have h2 := (stats_rates { maxGuesses := 8 }).2.2.1 (by decide)
  refine ⟨?_, ?_, h1.2.2, h2.1, h2.2⟩
  · rw [h1.1]
    norm_num [endGameDisplay]
  · rw [h1.2.1]
    norm_num [endGameDisplay]

-- ===================== C2 =====================

/-- C2 counterexample: target `A`, `maxGuesses = 2` for both players.
Player 1 guesses the wrong letters `B` then `C` and reaches `Lost` (with
a loss recorded) in the second cycle; player 2 then guesses `A` and
transitions to `Won` in that same cycle.  So at the moment a player's
round state transitions to `Won`, the other player's round state is
`Lost` — not `Unresolved` — and a loss has been recorded for them,
refuting the claim's universal "remains Unresolved / no loss" clause. -/
theorem mp_other_player_not_unresolved_cex :
    (runGame 3
      { player1 := { state := freshRound ['A'] [] 2, playerName := "Player 1" },
        script1 := [.letter 'B', .letter 'C'],
        player2 := { state := freshRound ['A'] [] 2, playerName := "Player 2" },
        script2 := [.letter 'B', .letter 'A'],
        gameActive := true }).player2.state.wordGuessed = true ∧
    outcome (runGame 3
      { player1 := { state := freshRound ['A'] [] 2, playerName := "Player 1" },
        script1 := [.letter 'B', .letter 'C'],
        player2 := { state := freshRound ['A'] [] 2, playerName := "Player 2" },
        script2 := [.letter 'B', .letter 'A'],
        gameActive := true }).player2.state = .Won ∧
    outcome (runGame 3
      { player1 := { state := freshRound ['A'] [] 2, playerName := "Player 1" },
        script1 := [.letter 'B', .letter 'C'],
        player2 := { state := freshRound ['A'] [] 2, playerName := "Player 2" },
        script2 := [.letter 'B', .letter 'A'],
        gameActive := true }).player1.state = .Lost ∧
    (runGame 3
      { player1 := { state := freshRound ['A'] [] 2, playerName := "Player 1" },
        script1 := [.letter 'B', .letter 'C'],
        player2 := { state := freshRound ['A'] [] 2, playerName := "Player 2" },
        script2 := [.letter 'B', .letter 'A'],
        gameActive := true }).player1.totalLosses = 1 := by
  refine ⟨rfl, rfl, rfl, rfl⟩

/-- C2 (amended): immediately after any player's round state transitions
to `Won`, the whole game loop stops: if player 1's pending guess wins,
the loop returns at once with player 2's entire `PlayerState` (round
state, tallies) and remaining script untouched — in particular, if
player 2 was `Unresolved` they stay `Unresolved` and no loss is recorded
for them; if player 2's pending guess wins after player 1's non-winning
turn, the loop returns at once with player 1 exactly as that single turn
left them, consuming nothing further from player 1's script.  (The other
player may, however, already have been `Lost` from their own earlier
guesses, as the counterexample shows.) -/
theorem mp_win_short_circuit (st : MPState) (fuel : Nat)
    (hact : st.gameActive = true) :
    ((playerTurn st.player1 st.script1).wonNow = true →
      runGame (fuel + 1) st =
        { player1 := (playerTurn st.player1 st.script1).player,
          script1 := (playerTurn st.player1 st.script1).script,
          player2 := st.player2, script2 := st.script2, gameActive := false } ∧
      (runGame (fuel + 1) st).player2 = st.player2 ∧
      (runGame (fuel + 1) st).player2.totalLosses = st.player2.totalLosses ∧
      (outcome st.player2.state = .Unresolved →
        outcome (runGame (fuel + 1) st).player2.state = .Unresolved)) ∧
    ((playerTurn st.player1 st.script1).wonNow = false →
      (playerTurn st.player2 st.script2).wonNow = true →
      runGame (fuel + 1) st =
        { player1 := (playerTurn st.player1 st.script1).player,
          script1 := (playerTurn st.player1 st.script1).script,
          player2 := (playerTurn st.player2 st.script2).player,
          script2 := (playerTurn st.player2 st.script2).script,
          gameActive := false }) := by
  constructor
  · intro hwon
    have hcycle : runCycle st =
        { player1 := (playerTurn st.player1 st.script1).player,
          script1 := (playerTurn st.player1 st.script1).script,
          player2 := st.player2, script2 := st.script2, gameActive := false } := by
      unfold runCycle
      rw [if_pos hwon]
    have hrun : runGame (fuel + 1) st =
        { player1 := (playerTurn st.player1 st.script1).player,
          script1 := (playerTurn st.player1 st.script1).script,
          player2 := st.player2, script2 := st.script2, gameActive := false } := by
      show (if st.gameActive then runGame fuel (runCycle st) else st) = _
      rw [hact]
      simp only [if_true]
      rw [hcycle]
      exact runGame_inactive fuel _ rfl
    refine ⟨hrun, ?_, ?_, ?_⟩ <;> rw [hrun]
    intro h
    exact h
  · intro hnot hwon
    have hcycle : runCycle st =
        { player1 := (playerTurn st.player1 st.script1).player,
          script1 := (playerTurn st.player1 st.script1).script,
          player2 := (playerTurn st.player2 st.script2).player,
          script2 := (playerTurn st.player2 st.script2).script,
          gameActive := false } := by
      unfold runCycle
      rw [if_neg (by rw [hnot]; exact Bool.false_ne_true), if_pos hwon]
    show (if st.gameActive then runGame fuel (runCycle st) else st) = _
    rw [hact]
    simp only [if_true]
    rw [hcycle]
    exact runGame_inactive fuel _ rfl

/-- Witness for C2: the spec's short-circuit scenario — player 1's
winning guess on target `A` ends the round at once; player 2, who has
one wrong guess, stays `Unresolved` with no loss recorded. -/
theorem mp_win_short_circuit_witness :
    (runGame 1
      { player1 := { state := freshRound ['A'] [] 4, playerName := "Player 1" },
        script1 := [.letter 'A'],
        player2 := { state := { freshRound ['A'] [] 4 with
                        guessedLetters := ['B'], incorrectGuesses := 1 },
                     playerName := "Player 2" },
        script2 := [.letter 'C'],
        gameActive := true }).player2.totalLosses = 0 ∧
    outcome (runGame 1
      { player1 := { state := freshRound ['A'] [] 4, playerName := "Player 1" },
        script1 := [.letter 'A'],
        player2 := { state := { freshRound ['A'] [] 4 with
                        guessedLetters := ['B'], incorrectGuesses := 1 },
                     playerName := "Player 2" },
        script2 := [.letter 'C'],
        gameActive := true }).player2.state = .Unresolved := by
  have h := (mp_win_short_circuit
    { player1 := { state := freshRound ['A'] [] 4, playerName := "Player 1" },
      script1 := [.letter 'A'],
      player2 := { state := { freshRound ['A'] [] 4 with
                      guessedLetters := ['B'], incorrectGuesses := 1 },
                   playerName := "Player 2" },
      script2 := [.letter 'C'],
      gameActive := true } 0 rfl).1 (by decide)
  exact ⟨by rw [h.2.2.1], h.2.2.2 (by decide)⟩
